import Mathlib

/-!
Shallow embedding of vegan's `src/getF.c` (permutation pseudo-F driver).

Doubles are modelled as integers: the driver performs only ring
operations (additions and multiplications) on matrix entries, so ℤ is a
faithful abstraction of the arithmetic getF.c actually uses, and it keeps
every definition kernel-computable on concrete inputs.  Matrices are
column-major flat `List ℤ` buffers, read through `List.getD` with default
`0` (matching the C code's flat `double *` indexing).  The two numerical primitives the C
file calls (LINPACK `dqrsl`, LAPACK `dgesdd`) are external library
services; they are modelled as abstract parameter structures (`QRPrim`,
`SVD`) whose behavioural fields stand for the values the routines write
into their output arguments.  Everything in the driver itself (`getEV`,
`svdfirst`, `do_getF`) is translated statement by statement from the C.
-/

namespace GetF

/-- LINPACK decimal job coding used by getF.c: fitted values. -/
def FIT : ℕ := 1

/-- LINPACK decimal job coding used by getF.c: residuals. -/
def RESID : ℕ := 10

/-- dqrsl computes the residual output iff the tens digit of the decimal
job code is non-zero (LINPACK job decoding `cr = mod(job,100)/10 != 0`). -/
def wantsResid (job : ℕ) : Bool := decide ((job % 100) / 10 ≠ 0)

/-- dqrsl computes the fitted-value output iff the ones digit of the
decimal job code is non-zero (LINPACK `cxb = mod(job,10) != 0`). -/
def wantsFit (job : ℕ) : Bool := decide (job % 10 ≠ 0)

/-- `getEV` from getF.c: eigenvalue summary of a flat `nr × nc` buffer.
The C `switch(isDB)` has cases only for `1` (sum of squared diagonal
entries of an `nr × nr` layout) and `0` (sum of squares of all `nr*nc`
entries); for any other flag the local accumulator `sumev` is returned
uninitialised, which the embedding models with the extra argument
`sumev0` standing for whatever garbage the accumulator held. -/
def getEV (x : List ℤ) (nr nc : ℕ) (isDB : ℤ) (sumev0 : ℤ) : ℤ :=
  if isDB = 1 then
    (List.range nr).foldl (fun s i => s + x.getD (i * nr + i) 0 * x.getD (i * nr + i) 0) 0
  else if isDB = 0 then
    (List.range (nr * nc)).foldl (fun s i => s + x.getD i 0 * x.getD i 0) 0
  else sumev0

/-- Abstract model of the LAPACK `dgesdd` service as used by `svdfirst`:
`queryInfo` is the status of the workspace-query call (`lwork = -1`),
`info` the status of the actual decomposition, and `sv` the vector of
singular values it writes (descending by the LAPACK contract). -/
structure SVD where
  queryInfo : ℕ → ℕ → List ℤ → ℤ
  info : ℕ → ℕ → List ℤ → ℤ
  sv : ℕ → ℕ → List ℤ → List ℤ

/-- The private copy `xwork` made by `svdfirst` (getF.c lines 55-57):
the first `nr*nc` entries of the caller's buffer. -/
def svdCopy (x : List ℤ) (nr nc : ℕ) : List ℤ :=
  (List.range (nr * nc)).map (fun i => x.getD i 0)

/-- `svdfirst` from getF.c.  It copies the caller's `nr*nc` entries into a
private work buffer (dgesdd destroys its input), runs the workspace query
and then the decomposition, raising an R error carrying the LAPACK status
code whenever either call reports non-zero `info`, and otherwise returns
`sigma[0]`.  The second component of the result is the content of the
caller's buffer after the call (the C never writes through `x`). -/
def svdfirst (P : SVD) (x : List ℤ) (nr nc : ℕ) : Except ℤ ℤ × List ℤ :=
  let xwork := svdCopy x nr nc
  let infoq := P.queryInfo nr nc xwork
  if infoq ≠ 0 then (Except.error infoq, x)
  else
    let info2 := P.info nr nc xwork
    if info2 ≠ 0 then (Except.error info2, x)
    else (Except.ok ((P.sv nr nc xwork).getD 0 0), x)

/-- Abstract model of the LINPACK `dqrsl` service: `fitv` and `residv`
are the fitted-value and residual columns it writes for a given factored
matrix, order, rank, auxiliary coefficients and right-hand side; `infov`
is the status it stores through its `info` argument (which may depend on
the job).  The `qty` scratch output is omitted: getF.c writes it to a
scratch buffer and never reads it. -/
structure QRPrim where
  fitv : List ℤ → ℕ → ℕ → List ℤ → List ℤ → List ℤ
  residv : List ℤ → ℕ → ℕ → List ℤ → List ℤ → List ℤ
  infov : List ℤ → ℕ → ℕ → List ℤ → List ℤ → ℕ → ℤ

/-- Outputs of one `dqrsl` call: `rsd`/`xb` are `some` exactly when the
job's decimal coding requests them (otherwise the corresponding output
argument is left untouched by LINPACK), and `info` is the stored status. -/
structure DqrslOut where
  rsd : Option (List ℤ)
  xb : Option (List ℤ)
  info : ℤ

/-- One call `dqrsl(qr, n, n, k, qraux, y, ..., job, info)` as issued by
getF.c, with outputs selected by the decimal job coding. -/
def dqrsl (P : QRPrim) (qr : List ℤ) (n k : ℕ) (qraux y : List ℤ) (job : ℕ) : DqrslOut :=
  { rsd := if wantsResid job then some (P.residv qr n k qraux y) else none
    xb := if wantsFit job then some (P.fitv qr n k qraux y) else none
    info := P.infov qr n k qraux y job }

/-- Column `j` of a column-major `nr`-row flat buffer. -/
def getCol (buf : List ℤ) (nr j : ℕ) : List ℤ :=
  (List.range nr).map (fun t => buf.getD (j * nr + t) 0)

/-- Overwrite column `j` of a column-major `nr`-row flat buffer. -/
def setCol (buf : List ℤ) (nr j : ℕ) (v : List ℤ) : List ℤ :=
  (List.range nr).foldl (fun b t => b.set (j * nr + t) (v.getD t 0)) buf

/-- The permutation loop of getF.c: for every row `i < nr`, look up
`ki = iperm[k + nperm*i]` (already 0-based) and copy row `ki` of `E` into
row `i` of the buffer, across all `nc` columns. -/
def permuteY (E : List ℤ) (iperm : List ℤ) (nperm nr nc k : ℕ) (rY : List ℤ) : List ℤ :=
  (List.range nr).foldl
    (fun buf i =>
      let ki := (iperm.getD (k + nperm * i) 0).toNat
      (List.range nc).foldl (fun b j => b.set (i + nr * j) (E.getD (ki + nr * j) 0)) buf)
    rY

/-- The partial-model residualisation loop of getF.c: for each of the
`nc` columns of the buffer, call dqrsl on the partial factorisation with
job `RESID`, writing the residual back into the same column in place. -/
def residZ (P : QRPrim) (Zqr : List ℤ) (Zqrank : ℕ) (Zqraux : List ℤ)
    (nr nc : ℕ) (rY : List ℤ) : List ℤ :=
  (List.range nc).foldl
    (fun buf i =>
      let out := dqrsl P Zqr nr Zqrank Zqraux (getCol buf nr i) RESID
      match out.rsd with
      | some v => setCol buf nr i v
      | none => buf)
    rY

/-- The design-model projection loop of getF.c: for each column, call
dqrsl on the design factorisation with the selected job, storing the
fitted column into the fitted buffer and the residual column into the
residual buffer — each only when the job requests it, since LINPACK
leaves unrequested output arguments untouched. -/
def designProj (P : QRPrim) (qr : List ℤ) (qrank : ℕ) (qraux : List ℤ)
    (nr nc job : ℕ) (rY fitted resid : List ℤ) : List ℤ × List ℤ :=
  (List.range nc).foldl
    (fun fr i =>
      let out := dqrsl P qr nr qrank qraux (getCol rY nr i) job
      ((match out.xb with
        | some v => setCol fr.1 nr i v
        | none => fr.1),
       (match out.rsd with
        | some v => setCol fr.2 nr i v
        | none => fr.2)))
    (fitted, resid)

/-- The job selection of getF.c lines 154-157: `FIT + RESID` when the
run has a partial model or uses only the first singular value, plain
`FIT` otherwise. -/
def designQrkind (PARTL FIRST : Bool) : ℕ :=
  if PARTL || FIRST then FIT + RESID else FIT

/-- The mutable memory of one `do_getF` invocation.  `E`, `perms`, `qr`,
`qraux`, `Zqr`, `Zqraux` are the caller-owned buffers the code only
reads; `iperm` is the private duplicate of the permutation table;
`rY`, `fitted`, `resid` are the working buffers; `rans` is the
`nperm × 2` result table, with `none` standing for a never-written
(uninitialised) entry. -/
structure GFState where
  E : List ℤ
  perms : List ℤ
  qr : List ℤ
  qraux : List ℤ
  Zqr : List ℤ
  Zqraux : List ℤ
  iperm : List ℤ
  rY : List ℤ
  fitted : List ℤ
  resid : List ℤ
  rans : List (Option ℤ)
deriving DecidableEq

/-- The loop-invariant parameters of one `do_getF` invocation. -/
structure GFParams where
  QP : QRPrim
  SP : SVD
  nperm : ℕ
  nr : ℕ
  nc : ℕ
  qrank : ℕ
  Zqrank : ℕ
  FIRST : Bool
  PARTL : Bool

/-- Build the permuted (and, with a partial model, residualised)
response buffer for permutation row `k` (getF.c lines 136-151). -/
def permResidY (P : GFParams) (st : GFState) (k : ℕ) : List ℤ :=
  let rY1 := permuteY st.E st.iperm P.nperm P.nr P.nc k st.rY
  if P.PARTL then residZ P.QP st.Zqr P.Zqrank st.Zqraux P.nr P.nc rY1 else rY1

/-- One iteration of the permutation loop of getF.c (lines 135-178):
permute, optionally residualise against the partial model, project onto
the design factorisation, then fill row `k` of the result table; with
the first-singular-value path an SVD failure aborts the whole run. -/
def getFStep (P : GFParams) (st : GFState) (k : ℕ) : Except ℤ GFState :=
  let rY2 := permResidY P st k
  let fr := designProj P.QP st.qr P.qrank st.qraux P.nr P.nc
      (designQrkind P.PARTL P.FIRST) rY2 st.fitted st.resid
  (if P.FIRST then Except.map (fun s => s * s) (svdfirst P.SP fr.1 P.nr P.nc).1
   else Except.ok (getEV fr.1 P.nr P.nc 0 0)) >>= fun ev =>
  Except.ok
    { st with
      rY := rY2, fitted := fr.1, resid := fr.2,
      rans :=
        if P.PARTL || P.FIRST then
          (st.rans.set k (some ev)).set (k + P.nperm)
            (some (getEV fr.2 P.nr P.nc 0 0))
        else st.rans.set k (some ev) }

/-- The state at entry of the permutation loop: `rY` is `duplicate(E)`,
`iperm` is the private duplicate of the permutation table with every
stored 1-based index decremented once up front, the result table is
uninitialised, and `fitted0`/`resid0` are the arbitrary (uninitialised)
contents of the freshly allocated fitted and residual buffers. -/
def getFInit (perms : List ℤ) (E : List ℤ) (nperm : ℕ)
    (qr qraux Zqr Zqraux fitted0 resid0 : List ℤ) : GFState :=
  { E := E, perms := perms, qr := qr, qraux := qraux, Zqr := Zqr, Zqraux := Zqraux,
    iperm := perms.map (fun v => v - 1),
    rY := E, fitted := fitted0, resid := resid0,
    rans := List.replicate (nperm * 2) none }

/-- The first `m` iterations of the permutation loop. -/
def do_getFUpTo (P : GFParams) (st0 : GFState) (m : ℕ) : Except ℤ GFState :=
  (List.range m).foldlM (getFStep P) st0

/-- `do_getF` from getF.c: run all `nperm` permutation rows.  Arguments
mirror the C entry point: the permutation table (1-based, column-major
`nperm × nr`), the response `E` (`nr × nc`), the design factorisation
`(qr, qrank, qraux)`, the partial factorisation `(Zqr, Zqrank, Zqraux)`,
the `first` and partial-model flags, plus the model's stand-ins for the
uninitialised allocations. -/
def do_getF (QP : QRPrim) (SP : SVD) (perms : List ℤ) (E : List ℤ)
    (nperm nr nc : ℕ) (qr : List ℤ) (qrank : ℕ) (qraux Zqr : List ℤ)
    (Zqrank : ℕ) (Zqraux : List ℤ) (FIRST PARTL : Bool)
    (fitted0 resid0 : List ℤ) : Except ℤ GFState :=
  do_getFUpTo ⟨QP, SP, nperm, nr, nc, qrank, Zqrank, FIRST, PARTL⟩
    (getFInit perms E nperm qr qraux Zqr Zqraux fitted0 resid0) nperm

/-! ### Concrete instances of the external primitives, for evaluation -/

/-- A concrete QR service on 1×1 problems: fitted column `[7]`, residual
column `[42]`, status `0`. -/
def cQP : QRPrim :=
  { fitv := fun _ _ _ _ _ => [7]
    residv := fun _ _ _ _ _ => [42]
    infov := fun _ _ _ _ _ _ => 0 }

/-- The same QR service but reporting non-zero status `5` from every
solve. -/
def cQPbad : QRPrim := { cQP with infov := fun _ _ _ _ _ _ => 5 }

/-- A concrete SVD service that always succeeds and returns the work
buffer itself as the vector of singular values. -/
def cSP : SVD :=
  { queryInfo := fun _ _ _ => 0
    info := fun _ _ _ => 0
    sv := fun _ _ x => x }

/-- An SVD service whose workspace-query call fails with status `3`. -/
def cSPq : SVD := { cSP with queryInfo := fun _ _ _ => 3 }

/-- An SVD service whose decomposition call fails with status `4`. -/
def cSPi : SVD := { cSP with info := fun _ _ _ => 4 }

/-- Final state of the 1×1, one-permutation run with a partial model and
the full-eigenvalue path (`FIRST = false`, `PARTL = true`). -/
def cSt1 : GFState :=
  { E := [3], perms := [1], qr := [1], qraux := [0], Zqr := [1], Zqraux := [0],
    iperm := [0], rY := [42], fitted := [7], resid := [42],
    rans := [some 49, some 1764] }

/-- Final state of the 1×1, one-permutation run with neither flag set
(`FIRST = false`, `PARTL = false`), started with garbage `[99]`/`[88]`
in the fitted/residual buffers. -/
def cStNoFlags : GFState :=
  { E := [3], perms := [1], qr := [1], qraux := [0], Zqr := [], Zqraux := [],
    iperm := [0], rY := [3], fitted := [7], resid := [88],
    rans := [some 49, none] }

/-- Final state of the 1×1, one-permutation run on the first-singular-
value path (`FIRST = true`, `PARTL = false`). -/
def cStFirst : GFState :=
  { E := [3], perms := [1], qr := [1], qraux := [0], Zqr := [], Zqraux := [],
    iperm := [0], rY := [3], fitted := [7], resid := [42],
    rans := [some 49, some 1764] }

/-- Final state of the run behind the C1 amended-claim witness: neither
flag set, garbage `[77]`/`[55]` in the fitted/residual buffers. -/
def cStW1 : GFState :=
  { E := [3], perms := [1], qr := [1], qraux := [0], Zqr := [], Zqraux := [],
    iperm := [0], rY := [3], fitted := [7], resid := [55],
    rans := [some 49, none] }

/-! ### Buffer and fold lemmas -/

lemma getD_set_ne {α : Type} (l : List α) (i j : ℕ) (v d : α) (h : i ≠ j) :
    (l.set i v).getD j d = l.getD j d := by
  simp [List.getD_eq_getElem?_getD, List.getElem?_set_ne h]

lemma getD_set_self {α : Type} (l : List α) (i : ℕ) (v d : α) (h : i < l.length) :
    (l.set i v).getD i d = v := by
  simp [List.getD_eq_getElem?_getD, List.getElem?_set_self h]

lemma getD_replicate_none {α : Type} (r n : ℕ) :
    (List.replicate r (none : Option α)).getD n none = none := by
  simp [List.getD_eq_getElem?_getD]

lemma exceptBind_ok_iff {α β : Type} {x : Except ℤ α} {g : α → Except ℤ β} {b : β} :
    (x >>= g) = Except.ok b ↔ ∃ a, x = Except.ok a ∧ g a = Except.ok b := by
  cases x with
  | error e =>
      constructor
      · intro h; exact absurd h (by simp [Bind.bind, Except.bind])
      · rintro ⟨a, ha, -⟩; exact absurd ha (by simp)
  | ok a =>
      constructor
      · intro h; exact ⟨a, rfl, h⟩
      · rintro ⟨a', ha, hg⟩
        have : a' = a := by simpa using ha.symm
        subst this; exact hg

lemma exceptMap_ok_iff {α β : Type} {f : α → β} {x : Except ℤ α} {b : β} :
    Except.map f x = Except.ok b ↔ ∃ a, x = Except.ok a ∧ b = f a := by
  cases x with
  | error e => simp [Except.map]
  | ok a =>
      simp only [Except.map]
      constructor
      · intro h; exact ⟨a, rfl, by simpa using h.symm⟩
      · rintro ⟨a', ha, hb⟩
        have : a' = a := by simpa using ha.symm
        subst this; simp [hb]

lemma foldl_add_sq (f : ℕ → ℤ) : ∀ (n : ℕ) (a : ℤ),
    (List.range n).foldl (fun s i => s + f i) a = a + ∑ i ∈ Finset.range n, f i := by
  intro n
  induction n with
  | zero => intro a; simp
  | succ n ih =>
      intro a
      rw [List.range_succ, List.foldl_append, ih, Finset.sum_range_succ]
      simp [add_assoc]

/-! ### Single-step lemmas about the permutation loop -/

lemma getFStep_ok_inv {P : GFParams} {st st' : GFState} {k : ℕ}
    (h : getFStep P st k = Except.ok st') :
    ∃ ev : ℤ,
      (P.FIRST = true → ∃ s, (svdfirst P.SP st'.fitted P.nr P.nc).1 = Except.ok s ∧
        ev = s * s) ∧
      (P.FIRST = false → ev = getEV st'.fitted P.nr P.nc 0 0) ∧
      st'.E = st.E ∧ st'.perms = st.perms ∧ st'.qr = st.qr ∧ st'.qraux = st.qraux ∧
      st'.Zqr = st.Zqr ∧ st'.Zqraux = st.Zqraux ∧ st'.iperm = st.iperm ∧
      st'.rY = permResidY P st k ∧
      st'.fitted = (designProj P.QP st.qr P.qrank st.qraux P.nr P.nc
          (designQrkind P.PARTL P.FIRST) (permResidY P st k) st.fitted st.resid).1 ∧
      st'.resid = (designProj P.QP st.qr P.qrank st.qraux P.nr P.nc
          (designQrkind P.PARTL P.FIRST) (permResidY P st k) st.fitted st.resid).2 ∧
      st'.rans = (if P.PARTL || P.FIRST then
          (st.rans.set k (some ev)).set (k + P.nperm)
            (some (getEV st'.resid P.nr P.nc 0 0))
        else st.rans.set k (some ev)) := by
  unfold getFStep at h
  rw [exceptBind_ok_iff] at h
  obtain ⟨ev, hev, hok⟩ := h
  injection hok with hst
  subst hst
  refine ⟨ev, ?_, ?_, rfl, rfl, rfl, rfl, rfl, rfl, rfl, rfl, rfl, rfl, rfl⟩
  · intro hF
    dsimp only
    rw [hF] at hev ⊢
    simp only [if_true] at hev
    exact exceptMap_ok_iff.1 hev
  · intro hF
    dsimp only
    rw [hF] at hev ⊢
    simp only [Bool.false_eq_true, if_false] at hev
    injection hev with h2
    exact h2.symm

lemma getFStep_frame {P : GFParams} {st st' : GFState} {k : ℕ}
    (h : getFStep P st k = Except.ok st') :
    st'.E = st.E ∧ st'.perms = st.perms ∧ st'.qr = st.qr ∧ st'.qraux = st.qraux ∧
    st'.Zqr = st.Zqr ∧ st'.Zqraux = st.Zqraux ∧ st'.iperm = st.iperm := by
  obtain ⟨ev, -, -, h1, h2, h3, h4, h5, h6, h7, -⟩ := getFStep_ok_inv h
  exact ⟨h1, h2, h3, h4, h5, h6, h7⟩

lemma getFStep_rans_length {P : GFParams} {st st' : GFState} {k : ℕ}
    (h : getFStep P st k = Except.ok st') :
    st'.rans.length = st.rans.length := by
  obtain ⟨ev, -, -, -, -, -, -, -, -, -, -, -, -, hr⟩ := getFStep_ok_inv h
  rw [hr]
  split <;> simp [List.length_set]

lemma getFStep_rans_getD_other {P : GFParams} {st st' : GFState} {k : ℕ}
    (h : getFStep P st k = Except.ok st') (j : ℕ) (h1 : k ≠ j) (h2 : k + P.nperm ≠ j) :
    st'.rans.getD j none = st.rans.getD j none := by
  obtain ⟨ev, -, -, -, -, -, -, -, -, -, -, -, -, hr⟩ := getFStep_ok_inv h
  rw [hr]
  split
  · rw [getD_set_ne _ _ _ _ _ h2, getD_set_ne _ _ _ _ _ h1]
  · rw [getD_set_ne _ _ _ _ _ h1]

lemma getFStep_col1_some {P : GFParams} {st st' : GFState} {k : ℕ}
    (hPF : (P.PARTL || P.FIRST) = true)
    (h : getFStep P st k = Except.ok st') (hlen : k + P.nperm < st.rans.length) :
    st'.rans.getD (k + P.nperm) none = some (getEV st'.resid P.nr P.nc 0 0) := by
  obtain ⟨ev, -, -, -, -, -, -, -, -, -, -, -, -, hr⟩ := getFStep_ok_inv h
  rw [hr, if_pos hPF, getD_set_self]
  rwa [List.length_set]

lemma getFStep_col1_none_other {P : GFParams} {st st' : GFState} {k : ℕ}
    (hPF : (P.PARTL || P.FIRST) = false)
    (h : getFStep P st k = Except.ok st') (j : ℕ) (hj : k ≠ j) :
    st'.rans.getD j none = st.rans.getD j none := by
  obtain ⟨ev, -, -, -, -, -, -, -, -, -, -, -, -, hr⟩ := getFStep_ok_inv h
  rw [hr, if_neg (by simp [hPF]), getD_set_ne _ _ _ _ _ hj]

lemma getFStep_col0 {P : GFParams} {st st' : GFState} {k : ℕ}
    (h : getFStep P st k = Except.ok st') (hlen : k < st.rans.length)
    (hn : 0 < P.nperm) :
    (P.FIRST = true → ∃ s, (svdfirst P.SP st'.fitted P.nr P.nc).1 = Except.ok s ∧
        st'.rans.getD k none = some (s * s)) ∧
    (P.FIRST = false → st'.rans.getD k none = some (getEV st'.fitted P.nr P.nc 0 0)) := by
  obtain ⟨ev, hT, hF, -, -, -, -, -, -, -, -, -, -, hr⟩ := getFStep_ok_inv h
  have hget : st'.rans.getD k none = some ev := by
    rw [hr]
    split
    · rw [getD_set_ne _ _ _ _ _ (by omega), getD_set_self _ _ _ _ hlen]
    · rw [getD_set_self _ _ _ _ hlen]
  constructor
  · intro hFi
    obtain ⟨s, hs, hevs⟩ := hT hFi
    exact ⟨s, hs, by rw [hget, hevs]⟩
  · intro hFi
    rw [hget, hF hFi]

/-- With a job whose decimal coding does not request residuals, the
design projection loop leaves the residual buffer untouched. -/
lemma foldl_snd_const {α : Type} (g : (List ℤ × List ℤ) → α → List ℤ) :
    ∀ (l : List α) (fr : List ℤ × List ℤ),
      (l.foldl (fun fr i => (g fr i, fr.2)) fr).2 = fr.2 := by
  intro l
  induction l with
  | nil => intro fr; rfl
  | cons a l ih => intro fr; rw [List.foldl_cons]; exact ih _

lemma designProj_resid_const {QP : QRPrim} {qr : List ℤ} {qrank : ℕ} {qraux : List ℤ}
    {nr nc job : ℕ} (hjob : wantsResid job = false) (rY fitted resid : List ℤ) :
    (designProj QP qr qrank qraux nr nc job rY fitted resid).2 = resid := by
  unfold designProj
  rw [List.foldl_ext _
    (fun fr i =>
      ((match (dqrsl QP qr nr qrank qraux (getCol rY nr i) job).xb with
        | some v => setCol fr.1 nr i v
        | none => fr.1), fr.2))
    (fitted, resid)
    (by
      intro fr i _
      simp only [dqrsl, hjob, Bool.false_eq_true, if_false])]
  exact foldl_snd_const _ _ _

/-! ### Whole-run lemmas -/

lemma do_getFUpTo_zero (P : GFParams) (st0 : GFState) :
    do_getFUpTo P st0 0 = Except.ok st0 := rfl

lemma do_getFUpTo_succ (P : GFParams) (st0 : GFState) (m : ℕ) :
    do_getFUpTo P st0 (m + 1) =
      do_getFUpTo P st0 m >>= fun s => getFStep P s m := by
  unfold do_getFUpTo
  rw [List.range_succ, List.foldlM_append]
  simp

lemma do_getFUpTo_ok_succ_iff {P : GFParams} {st0 : GFState} {m : ℕ} {st' : GFState} :
    do_getFUpTo P st0 (m + 1) = Except.ok st' ↔
      ∃ s, do_getFUpTo P st0 m = Except.ok s ∧ getFStep P s m = Except.ok st' := by
  rw [do_getFUpTo_succ]
  exact exceptBind_ok_iff

lemma do_getFUpTo_preserve {P : GFParams} {st0 : GFState} (Q : GFState → Prop) :
    ∀ {m : ℕ} {st' : GFState},
      (∀ s s' a, a < m → getFStep P s a = Except.ok s' → Q s → Q s') →
      do_getFUpTo P st0 m = Except.ok st' → Q st0 → Q st' := by
  intro m
  induction m with
  | zero =>
      intro st' _ h h0
      rw [do_getFUpTo_zero] at h
      injection h with h
      rwa [← h]
  | succ m ih =>
      intro st' hstep h h0
      obtain ⟨s, hs, hlast⟩ := do_getFUpTo_ok_succ_iff.1 h
      have hQs := ih (fun s s' a ha => hstep s s' a (by omega)) hs h0
      exact hstep s st' m (by omega) hlast hQs

lemma do_getFUpTo_rans_length {P : GFParams} {st0 : GFState} {m : ℕ} {st' : GFState}
    (h : do_getFUpTo P st0 m = Except.ok st') :
    st'.rans.length = st0.rans.length :=
  do_getFUpTo_preserve (fun s => s.rans.length = st0.rans.length)
    (fun _ _ _ _ hstep hq => by exact Eq.trans (getFStep_rans_length hstep) hq) h rfl

lemma do_getFUpTo_frame {P : GFParams} {st0 : GFState} {m : ℕ} {st' : GFState}
    (h : do_getFUpTo P st0 m = Except.ok st') :
    st'.E = st0.E ∧ st'.perms = st0.perms ∧ st'.qr = st0.qr ∧ st'.qraux = st0.qraux ∧
    st'.Zqr = st0.Zqr ∧ st'.Zqraux = st0.Zqraux ∧ st'.iperm = st0.iperm := by
  refine do_getFUpTo_preserve
    (fun s => s.E = st0.E ∧ s.perms = st0.perms ∧ s.qr = st0.qr ∧ s.qraux = st0.qraux ∧
      s.Zqr = st0.Zqr ∧ s.Zqraux = st0.Zqraux ∧ s.iperm = st0.iperm)
    (fun s s' a _ hstep hq => ?_) h ⟨rfl, rfl, rfl, rfl, rfl, rfl, rfl⟩
  obtain ⟨f1, f2, f3, f4, f5, f6, f7⟩ := getFStep_frame hstep
  obtain ⟨q1, q2, q3, q4, q5, q6, q7⟩ := hq
  exact ⟨f1.trans q1, f2.trans q2, f3.trans q3, f4.trans q4, f5.trans q5, f6.trans q6,
    f7.trans q7⟩

/-- Decompose a successful run at row `k < m`: there is an intermediate
state right after iteration `k`, and the two result-table entries of row
`k` are already final there. -/
lemma do_getFUpTo_row {P : GFParams} {st0 : GFState} :
    ∀ {m : ℕ} {st' : GFState}, m ≤ P.nperm →
      do_getFUpTo P st0 m = Except.ok st' → ∀ k, k < m →
      ∃ stk, do_getFUpTo P st0 (k + 1) = Except.ok stk ∧
        st'.rans.getD k none = stk.rans.getD k none ∧
        st'.rans.getD (k + P.nperm) none = stk.rans.getD (k + P.nperm) none := by
  intro m
  induction m with
  | zero => intro st' _ _ k hk; omega
  | succ m ih =>
      intro st' hm h k hk
      obtain ⟨s, hs, hlast⟩ := do_getFUpTo_ok_succ_iff.1 h
      rcases Nat.lt_succ_iff_lt_or_eq.1 hk with hk' | rfl
      · obtain ⟨stk, h1, h2, h3⟩ := ih (by omega) hs k hk'
        refine ⟨stk, h1, ?_, ?_⟩
        · rw [getFStep_rans_getD_other hlast k (by omega) (by omega), h2]
        · rw [getFStep_rans_getD_other hlast (k + P.nperm) (by omega) (by omega), h3]
      · exact ⟨st', h, rfl, rfl⟩

lemma foldlM_congr_fun {σ α : Type} (f g : σ → α → Except ℤ σ) (h : ∀ s a, f s a = g s a) :
    ∀ (l : List α) (s : σ), l.foldlM f s = l.foldlM g s := by
  intro l
  induction l with
  | nil => intro s; rfl
  | cons a l ih =>
      intro s
      rw [List.foldlM_cons, List.foldlM_cons, h s a]
      cases g s a with
      | error e => rfl
      | ok s1 => exact ih s1

/-- The step function never reads the status stored by the QR solve:
two QR services agreeing on fitted values and residuals (but possibly
reporting different statuses) drive identical iterations. -/
lemma getFStep_congr {QP QP' : QRPrim} {SP : SVD} {nperm nr nc qrank Zqrank : ℕ}
    {FIRST PARTL : Bool} (hf : QP.fitv = QP'.fitv) (hr : QP.residv = QP'.residv)
    (st : GFState) (k : ℕ) :
    getFStep ⟨QP, SP, nperm, nr, nc, qrank, Zqrank, FIRST, PARTL⟩ st k =
      getFStep ⟨QP', SP, nperm, nr, nc, qrank, Zqrank, FIRST, PARTL⟩ st k := by
  simp only [getFStep, permResidY, residZ, designProj, dqrsl, hf, hr]

/-- With the first-singular-value flag up and an SVD service whose
workspace query always reports status `c ≠ 0`, every iteration aborts
with that status. -/
lemma getFStep_svd_queryfail {QP : QRPrim} {SP : SVD} {nperm nr nc qrank Zqrank : ℕ}
    {PARTL : Bool} {c : ℤ} (hq : ∀ a b x, SP.queryInfo a b x = c) (hc : c ≠ 0)
    (st : GFState) (k : ℕ) :
    getFStep ⟨QP, SP, nperm, nr, nc, qrank, Zqrank, true, PARTL⟩ st k =
      Except.error c := by
  simp only [getFStep, if_true, svdfirst, hq]
  rw [if_pos hc]
  rfl

/-! ### Claim theorems -/

/-- Claim C4: when either dgesdd call (workspace query or actual
decomposition) reports a non-zero status, `svdfirst` surfaces a fatal
error carrying exactly that status code, and it returns a value only
when both calls report status `0` — the value then being the first entry
of the singular-value vector. -/
theorem C4_svdfirst_status (P : SVD) (x : List ℤ) (nr nc : ℕ) :
    (P.queryInfo nr nc (svdCopy x nr nc) ≠ 0 →
      (svdfirst P x nr nc).1 = Except.error (P.queryInfo nr nc (svdCopy x nr nc))) ∧
    (P.queryInfo nr nc (svdCopy x nr nc) = 0 → P.info nr nc (svdCopy x nr nc) ≠ 0 →
      (svdfirst P x nr nc).1 = Except.error (P.info nr nc (svdCopy x nr nc))) ∧
    (∀ v, (svdfirst P x nr nc).1 = Except.ok v →
      P.queryInfo nr nc (svdCopy x nr nc) = 0 ∧ P.info nr nc (svdCopy x nr nc) = 0 ∧
      v = (P.sv nr nc (svdCopy x nr nc)).getD 0 0) := by
  simp only [svdfirst]
  refine ⟨?_, ?_, ?_⟩
  · intro h
    rw [if_pos h]
  · intro h1 h2
    rw [if_neg (by simp [h1]), if_pos h2]
  · intro v h
    by_cases hq : P.queryInfo nr nc (svdCopy x nr nc) ≠ 0
    · rw [if_pos hq] at h
      exact absurd h (by simp)
    · rw [if_neg hq] at h
      by_cases hi : P.info nr nc (svdCopy x nr nc) ≠ 0
      · rw [if_pos hi] at h
        exact absurd h (by simp)
      · rw [if_neg hi] at h
        have h' : Except.ok ((P.sv nr nc (svdCopy x nr nc)).getD 0 0) = Except.ok v := h
        injection h' with h'
        exact ⟨not_not.1 hq, not_not.1 hi, h'.symm⟩

/-- Witness for C4 at concrete SVD services failing in the workspace
query (status 3) and in the decomposition call (status 4). -/
theorem C4_svdfirst_status_witness :
    (svdfirst cSPq [3] 1 1).1 = Except.error 3 ∧
    (svdfirst cSPi [3] 1 1).1 = Except.error 4 :=
  ⟨(C4_svdfirst_status cSPq [3] 1 1).1 (by decide),
   (C4_svdfirst_status cSPi [3] 1 1).2.1 rfl (by decide)⟩

/-- Claim C5: `svdfirst` never mutates the caller's matrix: it hands
dgesdd a private copy, so the caller's buffer is identical before and
after the call, on every path (success or failure). -/
theorem C5_svdfirst_no_mutation : ∀ (P : SVD) (x : List ℤ) (nr nc : ℕ),
    (svdfirst P x nr nc).2 = x := by
  intro P x nr nc
  simp only [svdfirst]
  split
  · rfl
  · split <;> rfl

/-- Claim C6: `getEV` with flag 0 is the Frobenius norm squared (sum of
the squares of all `nr*nc` entries), with flag 1 the sum of squared
diagonal entries of the `nr × nr` layout; on the column-major 2×2 matrix
`[[1,2],[3,4]]` (stored `[1,3,2,4]`) this gives 30 and 17. -/
theorem C6_getEV_sum_of_squares :
    (∀ (x : List ℤ) (nr nc : ℕ) (g : ℤ),
        getEV x nr nc 0 g = ∑ i ∈ Finset.range (nr * nc), x.getD i 0 * x.getD i 0) ∧
    (∀ (x : List ℤ) (nr nc : ℕ) (g : ℤ),
        getEV x nr nc 1 g =
          ∑ i ∈ Finset.range nr, x.getD (i * nr + i) 0 * x.getD (i * nr + i) 0) ∧
    getEV [1, 3, 2, 4] 2 2 0 0 = 30 ∧ getEV [1, 3, 2, 4] 2 2 1 0 = 17 := by
  refine ⟨?_, ?_, by decide, by decide⟩
  · intro x nr nc g
    unfold getEV
    rw [if_neg (by decide), if_pos rfl,
      foldl_add_sq (fun i => x.getD i 0 * x.getD i 0), zero_add]
  · intro x nr nc g
    unfold getEV
    rw [if_pos rfl,
      foldl_add_sq (fun i => x.getD (i * nr + i) 0 * x.getD (i * nr + i) 0), zero_add]

/-- Claim C10: `getEV` is well defined only for flag values 0 and 1.
For any other flag the switch has no matching branch, so the function
returns whatever garbage the uninitialised accumulator held (`g`),
while for flags 0 and 1 the result is independent of that garbage. -/
theorem C10_getEV_flag_partiality (x : List ℤ) (nr nc : ℕ) (isDB : ℤ) (g g' : ℤ)
    (h0 : isDB ≠ 0) (h1 : isDB ≠ 1) :
    getEV x nr nc isDB g = g ∧
    getEV x nr nc 0 g = getEV x nr nc 0 g' ∧
    getEV x nr nc 1 g = getEV x nr nc 1 g' := by
  refine ⟨?_, ?_, ?_⟩
  · unfold getEV
    rw [if_neg h1, if_neg h0]
  · unfold getEV
    norm_num
  · unfold getEV
    norm_num

/-- Witness for C10 at flag 2 with garbage values 5 and 6. -/
theorem C10_getEV_flag_partiality_witness :
    getEV [1] 1 1 2 5 = 5 ∧ getEV [1] 1 1 0 5 = getEV [1] 1 1 0 6 ∧
      getEV [1] 1 1 1 5 = getEV [1] 1 1 1 6 :=
  C10_getEV_flag_partiality [1] 1 1 2 5 6 (by decide) (by decide)

/-- Counterexample to C1 as stated: with neither flag set the design
projection is issued with job `FIT` (fitted values only), not `RESID`
(residuals only).  In a concrete run the residual buffer keeps its
initial garbage `[88]` — different from the `[42]` the QR service would
have produced had residuals been requested — while the fitted buffer is
filled and feeds the explained-variance entry. -/
theorem C1_design_requests_cex :
    wantsResid (designQrkind false false) = false ∧
    wantsFit (designQrkind false false) = true ∧
    designQrkind false false ≠ RESID ∧
    do_getF cQP cSP [1] [3] 1 1 1 [1] 1 [0] [] 0 [] false false [99] [88] =
      Except.ok cStNoFlags ∧
    cStNoFlags.resid = [88] ∧
    cQP.residv [1] 1 1 [0] [3] = [42] :=
  ⟨rfl, rfl, by decide, rfl, rfl, rfl⟩

/-- Claim C1 (amended): the design-factorisation QR projection requests
fitted values only when neither the partial-model nor the
first-singular-value flag is set, and both fitted values and residuals
otherwise; consequently, with neither flag set a whole run leaves the
residual buffer exactly as it was allocated. -/
theorem C1_design_projection_requests :
    (∀ PARTL FIRST : Bool,
        wantsFit (designQrkind PARTL FIRST) = true ∧
        wantsResid (designQrkind PARTL FIRST) = (PARTL || FIRST)) ∧
    (∀ (QP : QRPrim) (SP : SVD) (perms : List ℤ) (E : List ℤ) (nperm nr nc : ℕ)
        (qr : List ℤ) (qrank : ℕ) (qraux Zqr : List ℤ) (Zqrank : ℕ) (Zqraux : List ℤ)
        (fitted0 resid0 : List ℤ) (st : GFState),
        do_getF QP SP perms E nperm nr nc qr qrank qraux Zqr Zqrank Zqraux false false
            fitted0 resid0 = Except.ok st →
        st.resid = resid0) := by
  constructor
  · intro PARTL FIRST
    cases PARTL <;> cases FIRST <;> exact ⟨rfl, rfl⟩
  · intro QP SP perms E nperm nr nc qr qrank qraux Zqr Zqrank Zqraux fitted0 resid0 st hok
    refine do_getFUpTo_preserve (fun s => s.resid = resid0) ?_ hok rfl
    intro s s' a _ hstep hq
    obtain ⟨ev, -, -, -, -, -, -, -, -, -, -, -, hres, -⟩ := getFStep_ok_inv hstep
    have hres2 : s'.resid = s.resid := by
      rw [hres]
      refine designProj_resid_const ?_ _ _ _
      dsimp only
      rfl
    exact hres2.trans hq

/-- Witness for the amended C1 at a concrete flagless run started with
garbage `[55]` in the residual buffer. -/
theorem C1_design_projection_requests_witness :
    cStW1.resid = [55] ∧
    wantsFit (designQrkind true false) = true ∧
    wantsResid (designQrkind true false) = (true || false) :=
  ⟨C1_design_projection_requests.2 cQP cSP [1] [3] 1 1 1 [1] 1 [0] [] 0 [] [77] [55]
      cStW1 rfl,
   (C1_design_projection_requests.1 true false).1,
   (C1_design_projection_requests.1 true false).2⟩

/-- Counterexample to C2 as stated: a QR service reporting non-zero
status `5` from every solve does not abort the batch — the run completes
normally with the same result table, because `do_getF` never reads the
`info` output of `dqrsl`. -/
theorem C2_qr_status_cex :
    cQPbad.infov [1] 1 1 [0] [3] (designQrkind false false) = 5 ∧
    (dqrsl cQPbad [1] 1 1 [0] [3] (designQrkind false false)).info ≠ 0 ∧
    do_getF cQPbad cSP [1] [3] 1 1 1 [1] 1 [0] [] 0 [] false false [99] [88] =
      Except.ok cStNoFlags :=
  ⟨rfl, by decide, rfl⟩

/-- Claim C2 (amended): the driver ignores the status reported by the QR
solve — its result is a function of the fitted and residual columns only,
so two QR services agreeing on those but reporting arbitrary different
statuses produce identical runs — while a failure of the SVD module is
fatal and aborts the whole batch carrying the underlying status code. -/
theorem C2_qr_status_ignored_svd_fatal :
    (∀ (QP QP' : QRPrim) (SP : SVD) (perms : List ℤ) (E : List ℤ) (nperm nr nc : ℕ)
        (qr : List ℤ) (qrank : ℕ) (qraux Zqr : List ℤ) (Zqrank : ℕ) (Zqraux : List ℤ)
        (FIRST PARTL : Bool) (fitted0 resid0 : List ℤ),
        QP.fitv = QP'.fitv → QP.residv = QP'.residv →
        do_getF QP SP perms E nperm nr nc qr qrank qraux Zqr Zqrank Zqraux FIRST PARTL
            fitted0 resid0 =
          do_getF QP' SP perms E nperm nr nc qr qrank qraux Zqr Zqrank Zqraux FIRST PARTL
            fitted0 resid0) ∧
    (∀ (QP : QRPrim) (SP : SVD) (perms : List ℤ) (E : List ℤ) (nperm nr nc : ℕ)
        (qr : List ℤ) (qrank : ℕ) (qraux Zqr : List ℤ) (Zqrank : ℕ) (Zqraux : List ℤ)
        (PARTL : Bool) (fitted0 resid0 : List ℤ) (c : ℤ),
        (∀ a b x, SP.queryInfo a b x = c) → c ≠ 0 → 1 ≤ nperm →
        do_getF QP SP perms E nperm nr nc qr qrank qraux Zqr Zqrank Zqraux true PARTL
            fitted0 resid0 = Except.error c) := by
  constructor
  · intro QP QP' SP perms E nperm nr nc qr qrank qraux Zqr Zqrank Zqraux FIRST PARTL
      fitted0 resid0 hf hr
    unfold do_getF do_getFUpTo
    exact foldlM_congr_fun _ _ (getFStep_congr hf hr) _ _
  · intro QP SP perms E nperm nr nc qr qrank qraux Zqr Zqrank Zqraux PARTL
      fitted0 resid0 c hq hc hn
    obtain ⟨m, rfl⟩ : ∃ m, nperm = m + 1 := ⟨nperm - 1, by omega⟩
    unfold do_getF do_getFUpTo
    rw [List.range_succ_eq_map, List.foldlM_cons, getFStep_svd_queryfail hq hc]
    rfl

/-- Witness for the amended C2: a run is unchanged under a QR service
reporting status 5, and an always-failing SVD service aborts a
first-singular-value run with its status code 3. -/
theorem C2_qr_status_ignored_svd_fatal_witness :
    do_getF cQP cSP [1] [3] 1 1 1 [1] 1 [0] [] 0 [] false false [99] [88] =
      do_getF cQPbad cSP [1] [3] 1 1 1 [1] 1 [0] [] 0 [] false false [99] [88] ∧
    do_getF cQP cSPq [1] [3] 1 1 1 [1] 1 [0] [] 0 [] true false [0] [0] =
      Except.error 3 :=
  ⟨C2_qr_status_ignored_svd_fatal.1 cQP cQPbad cSP [1] [3] 1 1 1 [1] 1 [0] [] 0 []
      false false [99] [88] rfl rfl,
   C2_qr_status_ignored_svd_fatal.2 cQP cSPq [1] [3] 1 1 1 [1] 1 [0] [] 0 [] false
      [0] [0] 3 (fun _ _ _ => rfl) (by decide) (by decide)⟩

/-- Claim C3: for every permutation row `k`, the residual-variance entry
(column 1 of the result table) is written — as the sum of squares of all
entries of the residual buffer as it stands after iteration `k` — when
the partial-model or first-singular-value flag holds, and otherwise it is
never written and keeps the unfilled sentinel value. -/
theorem C3_residual_column (QP : QRPrim) (SP : SVD) (perms : List ℤ) (E : List ℤ)
    (nperm nr nc : ℕ) (qr : List ℤ) (qrank : ℕ) (qraux Zqr : List ℤ) (Zqrank : ℕ)
    (Zqraux : List ℤ) (FIRST PARTL : Bool) (fitted0 resid0 : List ℤ) (st : GFState)
    (hok : do_getF QP SP perms E nperm nr nc qr qrank qraux Zqr Zqrank Zqraux FIRST
        PARTL fitted0 resid0 = Except.ok st)
    (k : ℕ) (hk : k < nperm) :
    ((PARTL || FIRST) = true →
      ∃ stk, do_getFUpTo ⟨QP, SP, nperm, nr, nc, qrank, Zqrank, FIRST, PARTL⟩
          (getFInit perms E nperm qr qraux Zqr Zqraux fitted0 resid0) (k + 1) =
            Except.ok stk ∧
        st.rans.getD (k + nperm) none = some (getEV stk.resid nr nc 0 0)) ∧
    ((PARTL || FIRST) = false → st.rans.getD (k + nperm) none = none) := by
  unfold do_getF at hok
  constructor
  · intro hPF
    obtain ⟨stk, hup, -, h1⟩ := do_getFUpTo_row (le_refl nperm) hok k hk
    obtain ⟨stk0, hs0, hstep⟩ := do_getFUpTo_ok_succ_iff.1 hup
    have hlen : stk0.rans.length = nperm * 2 := by
      rw [do_getFUpTo_rans_length hs0]
      simp [getFInit]
    have hlt : k + nperm < stk0.rans.length := by rw [hlen]; omega
    have h2 : stk.rans.getD (k + nperm) none = some (getEV stk.resid nr nc 0 0) :=
      getFStep_col1_some hPF hstep hlt
    have h1c : st.rans.getD (k + nperm) none = stk.rans.getD (k + nperm) none := h1
    exact ⟨stk, hup, h1c.trans h2⟩
  · intro hPF
    refine do_getFUpTo_preserve (fun s => s.rans.getD (k + nperm) none = none) ?_ hok ?_
    · intro s s' a ha hstep hq
      have hother : s'.rans.getD (k + nperm) none = s.rans.getD (k + nperm) none :=
        getFStep_col1_none_other hPF hstep (k + nperm) (by omega)
      exact hother.trans hq
    · simp [getFInit, getD_replicate_none]

/-- Witness for C3 at a concrete run with a partial model: column 1 of
the single row holds the sum of squares of the residual buffer. -/
theorem C3_residual_column_witness :
    (((true : Bool) || false) = true →
      ∃ stk, do_getFUpTo ⟨cQP, cSP, 1, 1, 1, 1, 1, false, true⟩
          (getFInit [1] [3] 1 [1] [0] [1] [0] [0] [0]) (0 + 1) = Except.ok stk ∧
        cSt1.rans.getD (0 + 1) none = some (getEV stk.resid 1 1 0 0)) ∧
    (((true : Bool) || false) = false → cSt1.rans.getD (0 + 1) none = none) :=
  C3_residual_column cQP cSP [1] [3] 1 1 1 [1] 1 [0] [1] 1 [0] false true [0] [0]
    cSt1 rfl 0 (by decide)

/-- Claim C7: the driver decrements the caller's 1-based permutation
indices exactly once, up front, on a private duplicate of the whole
table, and the caller's permutation table is unchanged after the run. -/
theorem C7_perm_table_private_copy (QP : QRPrim) (SP : SVD) (perms : List ℤ)
    (E : List ℤ) (nperm nr nc : ℕ) (qr : List ℤ) (qrank : ℕ) (qraux Zqr : List ℤ)
    (Zqrank : ℕ) (Zqraux : List ℤ) (FIRST PARTL : Bool) (fitted0 resid0 : List ℤ)
    (st : GFState)
    (hok : do_getF QP SP perms E nperm nr nc qr qrank qraux Zqr Zqrank Zqraux FIRST
        PARTL fitted0 resid0 = Except.ok st) :
    st.perms = perms ∧ st.iperm = perms.map (fun v => v - 1) := by
  unfold do_getF at hok
  obtain ⟨-, h2, -, -, -, -, h7⟩ := do_getFUpTo_frame hok
  exact ⟨h2, h7⟩

/-- Witness for C7 at the concrete partial-model run. -/
theorem C7_perm_table_private_copy_witness :
    cSt1.perms = [1] ∧ cSt1.iperm = List.map (fun v => v - 1) [1] :=
  C7_perm_table_private_copy cQP cSP [1] [3] 1 1 1 [1] 1 [0] [1] 1 [0] false true
    [0] [0] cSt1 rfl

/-- Claim C8: for every permutation row `k`, the explained-variance entry
(column 0) is the square of the first singular value `svdfirst` extracted
from the fitted buffer when the first-singular-value flag is set, and
otherwise the plain (not diagonal-only) sum of squares of all entries of
the fitted buffer as it stands after iteration `k`. -/
theorem C8_explained_column (QP : QRPrim) (SP : SVD) (perms : List ℤ) (E : List ℤ)
    (nperm nr nc : ℕ) (qr : List ℤ) (qrank : ℕ) (qraux Zqr : List ℤ) (Zqrank : ℕ)
    (Zqraux : List ℤ) (FIRST PARTL : Bool) (fitted0 resid0 : List ℤ) (st : GFState)
    (hok : do_getF QP SP perms E nperm nr nc qr qrank qraux Zqr Zqrank Zqraux FIRST
        PARTL fitted0 resid0 = Except.ok st)
    (k : ℕ) (hk : k < nperm) :
    ∃ stk, do_getFUpTo ⟨QP, SP, nperm, nr, nc, qrank, Zqrank, FIRST, PARTL⟩
        (getFInit perms E nperm qr qraux Zqr Zqraux fitted0 resid0) (k + 1) =
          Except.ok stk ∧
      (FIRST = true → ∃ s, (svdfirst SP stk.fitted nr nc).1 = Except.ok s ∧
        st.rans.getD k none = some (s * s)) ∧
      (FIRST = false → st.rans.getD k none = some (getEV stk.fitted nr nc 0 0)) := by
  unfold do_getF at hok
  obtain ⟨stk, hup, h0, -⟩ := do_getFUpTo_row (le_refl nperm) hok k hk
  obtain ⟨stk0, hs0, hstep⟩ := do_getFUpTo_ok_succ_iff.1 hup
  have hlen : stk0.rans.length = nperm * 2 := by
    rw [do_getFUpTo_rans_length hs0]
    simp [getFInit]
  have hcol :
      (FIRST = true → ∃ s, (svdfirst SP stk.fitted nr nc).1 = Except.ok s ∧
        stk.rans.getD k none = some (s * s)) ∧
      (FIRST = false → stk.rans.getD k none = some (getEV stk.fitted nr nc 0 0)) :=
    getFStep_col0 hstep (by rw [hlen]; omega) (Nat.zero_lt_of_lt hk)
  have h0c : st.rans.getD k none = stk.rans.getD k none := h0
  refine ⟨stk, hup, ?_, ?_⟩
  · intro hF
    obtain ⟨s, hs, hvs⟩ := hcol.1 hF
    exact ⟨s, hs, h0c.trans hvs⟩
  · intro hF
    exact h0c.trans (hcol.2 hF)

/-- Witness for C8 at the concrete first-singular-value run. -/
theorem C8_explained_column_witness :
    ∃ stk, do_getFUpTo ⟨cQP, cSP, 1, 1, 1, 1, 0, true, false⟩
        (getFInit [1] [3] 1 [1] [0] [] [] [0] [0]) (0 + 1) = Except.ok stk ∧
      ((true : Bool) = true → ∃ s, (svdfirst cSP stk.fitted 1 1).1 = Except.ok s ∧
        cStFirst.rans.getD 0 none = some (s * s)) ∧
      ((true : Bool) = false →
        cStFirst.rans.getD 0 none = some (getEV stk.fitted 1 1 0 0)) :=
  C8_explained_column cQP cSP [1] [3] 1 1 1 [1] 1 [0] [] 0 [] true false [0] [0]
    cStFirst rfl 0 (by decide)

/-- Claim C9: across the whole run, the response matrix and both QR
factorisations (factored matrices and auxiliary coefficients) are never
mutated — the final state holds them exactly as passed in; only the
working buffers and the result table change. -/
theorem C9_read_only_inputs (QP : QRPrim) (SP : SVD) (perms : List ℤ) (E : List ℤ)
    (nperm nr nc : ℕ) (qr : List ℤ) (qrank : ℕ) (qraux Zqr : List ℤ) (Zqrank : ℕ)
    (Zqraux : List ℤ) (FIRST PARTL : Bool) (fitted0 resid0 : List ℤ) (st : GFState)
    (hok : do_getF QP SP perms E nperm nr nc qr qrank qraux Zqr Zqrank Zqraux FIRST
        PARTL fitted0 resid0 = Except.ok st) :
    st.E = E ∧ st.qr = qr ∧ st.qraux = qraux ∧ st.Zqr = Zqr ∧ st.Zqraux = Zqraux := by
  unfold do_getF at hok
  obtain ⟨h1, -, h3, h4, h5, h6, -⟩ := do_getFUpTo_frame hok
  exact ⟨h1, h3, h4, h5, h6⟩

/-- Witness for C9 at the concrete partial-model run. -/
theorem C9_read_only_inputs_witness :
    cSt1.E = [3] ∧ cSt1.qr = [1] ∧ cSt1.qraux = [0] ∧ cSt1.Zqr = [1] ∧
      cSt1.Zqraux = [0] :=
  C9_read_only_inputs cQP cSP [1] [3] 1 1 1 [1] 1 [0] [1] 1 [0] false true [0] [0]
    cSt1 rfl

end GetF
